import Mathlib

/-!
Verification of the real-time connection registry of
`src/backend/src/services/SocketService.ts`.

The registry's three in-memory tables (`connectedUsers : Map<string, SocketUser>`,
`userSessions : Map<string, Set<string>>`, `rooms` — the Socket.IO adapter's
room-membership table) are modelled as association lists over `String` keys,
with JavaScript `Map.set` (replace-or-append), `Map.delete`, `Set.add`
(append-if-absent) and `Set.delete` semantics.  Handlers are translated
line-by-line from the TypeScript source; external collaborators (the token
verifier, the analytics sink) are passed in as explicit results, with a
boolean recording whether an awaited analytics call resolved or rejected.
-/

/-- JavaScript `Map.get`: first entry with the given key, if any. -/
def alLookup {α : Type} (m : List (String × α)) (k : String) : Option α :=
  match m with
  | [] => none
  | (k0, v) :: rest => if k0 = k then some v else alLookup rest k

/-- JavaScript `Map.set`: replace the entry in place if the key is present,
otherwise append a new entry (insertion order is preserved). -/
def alInsert {α : Type} (m : List (String × α)) (k : String) (v : α) :
    List (String × α) :=
  match m with
  | [] => [(k, v)]
  | (k0, v0) :: rest =>
    if k0 = k then (k, v) :: rest else (k0, v0) :: alInsert rest k v

/-- JavaScript `Map.delete`: remove every entry with the given key (keys are
unique by construction, so at most one entry is removed in reachable states). -/
def alErase {α : Type} (m : List (String × α)) (k : String) :
    List (String × α) :=
  m.filter (fun p => p.1 ≠ k)

/-- JavaScript `Set.add`: append the element if it is not already present. -/
def setAdd (l : List String) (x : String) : List String :=
  if x ∈ l then l else l ++ [x]

/-- JavaScript `Set.delete`: remove the element. -/
def setErase (l : List String) (x : String) : List String :=
  l.filter (fun y => y ≠ x)

/-- JavaScript `String.prototype.startsWith`, on the underlying character
lists. -/
def jsStartsWith (s pre : String) : Bool :=
  pre.data.isPrefixOf s.data

/-- JavaScript `String.prototype.split` with a single-character separator, on
character lists: `splitChars c l` returns the (possibly empty) segments of `l`
between occurrences of `c`. -/
def splitChars (c : Char) : List Char → List (List Char)
  | [] => [[]]
  | x :: xs =>
    if x = c then [] :: splitChars c xs
    else
      match splitChars c xs with
      | [] => [[x]]
      | y :: ys => (x :: y) :: ys

/-- JavaScript `s.split(c)` for a single-character separator. -/
def jsSplit (c : Char) (s : String) : List String :=
  (splitChars c s.data).map String.mk

/-- Result of a successful token verification by the external `AuthService`
collaborator: the sanitized user profile used by `handleAuthentication`. -/
structure UserInfo where
  id : String
  name : String
  role : String
deriving Repr, DecidableEq

/-- The `SocketUser` interface of `SocketService.ts`.  Timestamps are `Nat`
(milliseconds); the best-effort `location` field of the metadata is the
constant `Unknown/Unknown` record (`getLocationFromIP`) and is omitted. -/
structure SocketUser where
  userId : Option String
  role : Option String
  isAuthenticated : Bool
  connectedAt : Nat
  lastActivity : Nat
  userAgent : String
  ipAddress : String
deriving Repr, DecidableEq

/-- The registry's in-memory tables: the private `connectedUsers` and
`userSessions` maps of `SocketService`, plus the Socket.IO adapter's
room-membership table (mutated through `socket.join` / `socket.leave`). -/
structure RegistryState where
  connectedUsers : List (String × SocketUser)
  userSessions : List (String × List String)
  rooms : List (String × List String)
deriving Repr, DecidableEq

def emptyRegistry : RegistryState := ⟨[], [], []⟩

/-- Payloads emitted back to clients (the outbound event surface). -/
inductive OutEvent where
  | connection_established (socketId : String) (connectedUsers : Nat)
  | authentication_success (id name role : String)
  | authentication_error (message : String)
  | room_joined (room : String)
  | room_join_error (message : String)
  | room_left (room : String)
  | dashboard_update (activeConnections authenticatedUsers adminConnections : Nat)
  | real_time_analytics (summary : String)
  | active_users_count (count : Nat)
deriving Repr, DecidableEq

/-- A delivery: to one socket, to a room, or to every connection. -/
inductive Emit where
  | toSocket (handle : String) (event : OutEvent)
  | toRoom (room : String) (event : OutEvent)
  | toAll (event : OutEvent)
deriving Repr, DecidableEq

/-- Result of running one handler: the registry state after it, the events it
emitted to clients, the event types it sent to the analytics sink, and `ok`,
which is `false` when an awaited analytics call rejected and the rest of the
handler was therefore skipped (the rejection escapes as an unhandled promise
rejection — the handler has no surrounding try/catch). -/
structure HResult where
  state : RegistryState
  emits : List Emit
  analytics : List String
  ok : Bool
deriving Repr, DecidableEq

/-- Current members of a room (empty list if the room does not exist). -/
def roomMembers (s : RegistryState) (room : String) : List String :=
  (alLookup s.rooms room).getD []

/-- `socket.join(room)`: add the handle to the room's member set, creating the
room if needed; idempotent. -/
def socketJoin (s : RegistryState) (handle room : String) : RegistryState :=
  { s with rooms := alInsert s.rooms room (setAdd (roomMembers s room) handle) }

/-- `socket.leave(room)`: remove the handle from the room's member set; a
no-op when the room does not exist. -/
def socketLeave (s : RegistryState) (handle room : String) : RegistryState :=
  match alLookup s.rooms room with
  | some mem => { s with rooms := alInsert s.rooms room (setErase mem handle) }
  | none => s

/-- Socket.IO transport behaviour, not code of `SocketService.ts`: upon
disconnect the adapter removes the socket from every room it was in, before
the `disconnect` event handlers run. -/
def leaveAllRooms (s : RegistryState) (handle : String) : RegistryState :=
  { s with rooms := s.rooms.map (fun p => (p.1, setErase p.2 handle)) }

/-- `handleConnection` (register).  `preAuth` is the outcome of the
`authenticationMiddleware` handshake: `some (userId, role)` iff the external
verifier accepted the handshake token, in which case the middleware set
`socket.userId`, `socket.userRole` and `socket.isAuthenticated` together;
otherwise all three are unset.  `analyticsOk` says whether the awaited
`analyticsService.trackEvent` call resolved; the Redis mirror write is an
external side effect and is not modelled.  When the analytics call rejects,
the `connection_established` acknowledgment (which the source emits after the
`await`) is never sent. -/
def handleConnection (s : RegistryState) (handle : String)
    (preAuth : Option (String × String)) (now : Nat)
    (userAgent ipAddress : String) (analyticsOk : Bool) : HResult :=
  let socketUser : SocketUser :=
    { userId := preAuth.map Prod.fst
      role := preAuth.map Prod.snd
      isAuthenticated := preAuth.isSome
      connectedAt := now
      lastActivity := now
      userAgent := userAgent
      ipAddress := ipAddress }
  let s1 : RegistryState :=
    { s with connectedUsers := alInsert s.connectedUsers handle socketUser }
  let s2 : RegistryState :=
    match preAuth with
    | some (u, r) =>
      let sessions :=
        alInsert s1.userSessions u
          (setAdd ((alLookup s1.userSessions u).getD []) handle)
      let s2a := { s1 with userSessions := sessions }
      let s2b := socketJoin s2a handle ("user:" ++ u)
      if r = "admin" then socketJoin s2b handle "admins" else s2b
    | none => s1
  if analyticsOk then
    { state := s2
      emits := [.toSocket handle
        (.connection_established handle s2.connectedUsers.length)]
      analytics := ["socket_connection"]
      ok := true }
  else
    { state := s2, emits := [], analytics := ["socket_connection"], ok := false }

/-- `handleAuthentication` (the `authenticate` event).  `verify` is the result
of `authService.verifyToken(token)`: `some user` on success, `none` when the
token is invalid.  A verifier exception takes the same no-state-change path
with message `Authentication failed` instead of `Invalid token`; it is folded
into the `none` case.  Note the source never touches `userSessions` here. -/
def handleAuthentication (s : RegistryState) (handle : String)
    (verify : Option UserInfo) : HResult :=
  match verify with
  | some user =>
    let s1 : RegistryState :=
      match alLookup s.connectedUsers handle with
      | some socketUser =>
        let updated : SocketUser :=
          { socketUser with
              userId := some user.id
              role := some user.role
              isAuthenticated := true }
        { s with connectedUsers := alInsert s.connectedUsers handle updated }
      | none => s
    let s2 := socketJoin s1 handle ("user:" ++ user.id)
    let s3 := if user.role = "admin" then socketJoin s2 handle "admins" else s2
    { state := s3
      emits := [.toSocket handle
        (.authentication_success user.id user.name user.role)]
      analytics := []
      ok := true }
  | none =>
    { state := s
      emits := [.toSocket handle (.authentication_error "Invalid token")]
      analytics := []
      ok := true }

/-- `canJoinRoom`: the pure room-authorization rule, an exact translation of
the source's prefix checks (in source order: `admin_`, then `user:`, then
`public_`, else deny). -/
def canJoinRoom (userId userRole : Option String) (room : String) : Bool :=
  if jsStartsWith room "admin_" then userRole = some "admin"
  else if jsStartsWith room "user:" then
    let uid := (jsSplit ':' room).getD 1 ""
    userId = some uid || userRole = some "admin"
  else if jsStartsWith room "public_" then true
  else false

/-- `handleJoinRoom` (the `join_room` event).  `userId` and `userRole` are the
caller socket's fields, which the middleware and `handleAuthentication` keep
in sync with the `connectedUsers` record. -/
def handleJoinRoom (s : RegistryState) (handle : String)
    (userId userRole : Option String) (room : String) : HResult :=
  if canJoinRoom userId userRole room then
    { state := socketJoin s handle room
      emits := [.toSocket handle (.room_joined room)]
      analytics := []
      ok := true }
  else
    { state := s
      emits := [.toSocket handle (.room_join_error "Access denied to room")]
      analytics := []
      ok := true }

/-- `handleLeaveRoom` (the `leave_room` event). -/
def handleLeaveRoom (s : RegistryState) (handle room : String) : HResult :=
  { state := socketLeave s handle room
    emits := [.toSocket handle (.room_left room)]
    analytics := []
    ok := true }

/-- `handleUserActivity` (recordActivity).  The `trackEvent` call is **not**
awaited in the source, so a sink rejection cannot abort the handler or alter
its effects; `analyticsOk` is accepted only to state that independence. -/
def handleUserActivity (s : RegistryState) (handle : String) (now : Nat)
    (_analyticsOk : Bool) : HResult :=
  let s1 : RegistryState :=
    match alLookup s.connectedUsers handle with
    | some socketUser =>
      let updated : SocketUser := { socketUser with lastActivity := now }
      { s with connectedUsers := alInsert s.connectedUsers handle updated }
    | none => s
  { state := s1, emits := [], analytics := ["user_activity"], ok := true }

/-- `handleDisconnection` (unregister).  Session duration is computed from
`connectedAt` and included only in the analytics payload, which is not
modelled beyond the event type.  The `trackEvent` call **is** awaited and sits
before `connectedUsers.delete`, so when it rejects (`analyticsOk = false`)
the connection record is left in the table. -/
def handleDisconnection (s : RegistryState) (handle : String)
    (analyticsOk : Bool) : HResult :=
  match alLookup s.connectedUsers handle with
  | some socketUser =>
    let s1 : RegistryState :=
      match socketUser.userId with
      | some u =>
        match alLookup s.userSessions u with
        | some userSockets =>
          let remaining := setErase userSockets handle
          if remaining.isEmpty then
            { s with userSessions := alErase s.userSessions u }
          else
            { s with userSessions := alInsert s.userSessions u remaining }
        | none => s
      | none => s
    if analyticsOk then
      { state := { s1 with connectedUsers := alErase s1.connectedUsers handle }
        emits := []
        analytics := ["socket_disconnection"]
        ok := true }
    else
      { state := s1, emits := [], analytics := ["socket_disconnection"], ok := false }
  | none => { state := s, emits := [], analytics := [], ok := true }

/-- The full transport-level disconnect: the adapter removes the socket from
all rooms, then the registry's `disconnect` handler runs. -/
def disconnectStep (s : RegistryState) (handle : String)
    (analyticsOk : Bool) : HResult :=
  handleDisconnection (leaveAllRooms s handle) handle analyticsOk

/-- The snapshot computed by `getDashboardData` (its `timestamp` field is the
wall clock and is omitted). -/
structure DashboardData where
  activeConnections : Nat
  authenticatedUsers : Nat
  adminConnections : Nat
deriving Repr, DecidableEq

def getDashboardData (s : RegistryState) : DashboardData :=
  { activeConnections := s.connectedUsers.length
    authenticatedUsers :=
      (s.connectedUsers.filter (fun p => p.2.isAuthenticated)).length
    adminConnections :=
      (s.connectedUsers.filter (fun p => p.2.role = some "admin")).length }

def getPublicUserCount (s : RegistryState) : Nat :=
  s.connectedUsers.length

/-- The interval (in milliseconds) of the `setInterval` in `initialize`. -/
def broadcastIntervalMs : Nat := 10000

/-- `broadcastRealTimeData`, one periodic tick.  `fetch` is the result of the
awaited `analyticsService.getRealTimeMetrics()` call: when it rejects
(`none`), the surrounding try/catch swallows the error and the two broadcasts
after the fetch are skipped; the dashboard broadcast precedes the fetch and is
always delivered. -/
def broadcastRealTimeData (s : RegistryState) (fetch : Option String) :
    List Emit :=
  let d := getDashboardData s
  let dash := Emit.toRoom "admin_dashboard"
    (.dashboard_update d.activeConnections d.authenticatedUsers d.adminConnections)
  match fetch with
  | some summary =>
    [dash, .toRoom "admins" (.real_time_analytics summary),
     .toAll (.active_users_count (getPublicUserCount s))]
  | none => [dash]

/-- The operations claim C4 allows between `register` and `unregister`. -/
inductive MidOp where
  | auth (verify : Option UserInfo)
  | joinRm (room : String)
  | activity (now : Nat)
deriving Repr, DecidableEq

/-- Apply one mid-lifecycle operation of connection `handle`; `join_room`
reads the caller socket's identity fields from its registry record. -/
def applyMid (handle : String) (s : RegistryState) (op : MidOp) : RegistryState :=
  match op with
  | .auth verify => (handleAuthentication s handle verify).state
  | .joinRm room =>
    match alLookup s.connectedUsers handle with
    | some su => (handleJoinRoom s handle su.userId su.role room).state
    | none => s
  | .activity now => (handleUserActivity s handle now true).state

/-- One full connection lifecycle: register, then the given mid-lifecycle
operations, then the transport-level disconnect, with the analytics sink
resolving throughout. -/
def runLifecycle (s0 : RegistryState) (handle : String)
    (preAuth : Option (String × String)) (now : Nat) (ua ip : String)
    (mids : List MidOp) : RegistryState :=
  let s1 := (handleConnection s0 handle preAuth now ua ip true).state
  let s2 := mids.foldl (applyMid handle) s1
  (disconnectStep s2 handle true).state

/-- Every successful `authenticate` among `mids` re-asserts the identity the
connection already carried at registration (no identity change). -/
def midsIdConsistent (preAuth : Option (String × String))
    (mids : List MidOp) : Prop :=
  ∀ v : UserInfo, MidOp.auth (some v) ∈ mids →
    ∀ u0 r0, preAuth = some (u0, r0) → v.id = u0

/-- The by-user session-index invariant of claim C1: a user id has an entry
in `userSessions` iff some currently registered connection is authenticated
as that user; entries are never empty, and an entry lists exactly the handles
of the connections authenticated as that user. -/
def SessionInvOn (cu : List (String × SocketUser))
    (us : List (String × List String)) : Prop :=
  (∀ u hs, alLookup us u = some hs →
      hs ≠ [] ∧
      ∀ h, h ∈ hs ↔ ∃ su, alLookup cu h = some su ∧
        su.isAuthenticated = true ∧ su.userId = some u) ∧
  (∀ u, alLookup us u = none →
      ∀ h su, alLookup cu h = some su →
        ¬ (su.isAuthenticated = true ∧ su.userId = some u))

def SessionInv (s : RegistryState) : Prop :=
  SessionInvOn s.connectedUsers s.userSessions

/-- Registry states reachable through register, `join_room`, `leave_room`,
`user_activity` and disconnect events — every event of `SocketService` except
`authenticate` — with fresh handles on register, per-socket events arriving
only from registered sockets, and the analytics sink resolving. -/
inductive ReachableNoAuth : RegistryState → Prop where
  | init : ReachableNoAuth emptyRegistry
  | register (s : RegistryState) (handle : String)
      (preAuth : Option (String × String)) (now : Nat) (ua ip : String) :
      ReachableNoAuth s → alLookup s.connectedUsers handle = none →
      ReachableNoAuth (handleConnection s handle preAuth now ua ip true).state
  | joinRm (s : RegistryState) (handle room : String) (su : SocketUser) :
      ReachableNoAuth s → alLookup s.connectedUsers handle = some su →
      ReachableNoAuth (handleJoinRoom s handle su.userId su.role room).state
  | leaveRm (s : RegistryState) (handle room : String) :
      ReachableNoAuth s →
      ReachableNoAuth (handleLeaveRoom s handle room).state
  | activity (s : RegistryState) (handle : String) (now : Nat) :
      ReachableNoAuth s →
      ReachableNoAuth (handleUserActivity s handle now true).state
  | disconnect (s : RegistryState) (handle : String) :
      ReachableNoAuth s →
      ReachableNoAuth (disconnectStep s handle true).state

/-- Concrete state: `c1` registered with no handshake authentication. -/
def exRegistered : RegistryState :=
  (handleConnection emptyRegistry "c1" none 0 "ua" "ip" true).state

/-- `exRegistered`, after `c1` authenticates as `u1` via the `authenticate`
event. -/
def exAuthenticated : RegistryState :=
  (handleAuthentication exRegistered "c1" (some ⟨"u1", "Ann", "visitor"⟩)).state

/-- The registry record of `c1` in `exRegistered`. -/
def exRegisteredUser : SocketUser :=
  { userId := none, role := none, isAuthenticated := false,
    connectedAt := 0, lastActivity := 0, userAgent := "ua", ipAddress := "ip" }

/-- Concrete state: `c2` registered with no handshake authentication. -/
def exRegistered2 : RegistryState :=
  (handleConnection emptyRegistry "c2" none 3 "ua2" "ip2" true).state

/-- Mid-lifecycle invariant for claim C4, for one connection `handle`
registered with handshake outcome `preAuth`: the handle is registered; it
occurs in a session-index entry only under its registration-time user id;
entries are nonempty; and if it registered pre-authenticated, its record
still carries the registration-time user id. -/
def C4Inv (handle : String) (preAuth : Option (String × String))
    (s : RegistryState) : Prop :=
  (alLookup s.connectedUsers handle).isSome = true ∧
  (∀ u hs, alLookup s.userSessions u = some hs →
      hs ≠ [] ∧ (handle ∈ hs → ∃ r0, preAuth = some (u, r0))) ∧
  (∀ su, alLookup s.connectedUsers handle = some su →
      ∀ u0 r0, preAuth = some (u0, r0) → su.userId = some u0)

theorem alLookup_insert_self {α : Type} (m : List (String × α)) (k : String)
    (v : α) : alLookup (alInsert m k v) k = some v := by
  induction m with
  | nil => simp [alInsert, alLookup]
  | cons p rest ih =>
    by_cases h : p.1 = k
    · simp [alInsert, alLookup, h]
    · simp [alInsert, alLookup, h, ih]

theorem alLookup_insert_ne {α : Type} (m : List (String × α)) (k k' : String)
    (v : α) (hne : k ≠ k') : alLookup (alInsert m k v) k' = alLookup m k' := by
  induction m with
  | nil => simp [alInsert, alLookup, hne]
  | cons p rest ih =>
    by_cases h : p.1 = k
    · simp [alInsert, alLookup, h, hne]
    · simp [alInsert, alLookup, h, ih]

theorem alLookup_erase_self {α : Type} (m : List (String × α)) (k : String) :
    alLookup (alErase m k) k = none := by
  induction m with
  | nil => simp [alErase, alLookup]
  | cons p rest ih =>
    simp only [alErase, List.filter_cons, decide_not] at ih ⊢
    by_cases h : p.1 = k
    · simpa [h] using ih
    · simp [h, alLookup, ih]

theorem alLookup_erase_ne {α : Type} (m : List (String × α)) (k k' : String)
    (hne : k ≠ k') : alLookup (alErase m k) k' = alLookup m k' := by
  induction m with
  | nil => simp [alErase, alLookup]
  | cons p rest ih =>
    simp only [alErase, List.filter_cons, decide_not] at ih ⊢
    by_cases h : p.1 = k
    · subst h
      simp [alLookup, hne, ih]
    · by_cases h' : p.1 = k'
      · simp [alLookup, h, h', Ne.symm hne]
      · simp [alLookup, h, h', ih]

theorem mem_setAdd (l : List String) (x y : String) :
    y ∈ setAdd l x ↔ y ∈ l ∨ y = x := by
  by_cases h : x ∈ l
  · simp only [setAdd, if_pos h]
    constructor
    · exact Or.inl
    · rintro (hy | rfl)
      · exact hy
      · exact h
  · simp [setAdd, if_neg h]

theorem mem_setErase (l : List String) (x y : String) :
    y ∈ setErase l x ↔ y ∈ l ∧ y ≠ x := by
  simp [setErase]

theorem not_mem_setErase_self (l : List String) (x : String) :
    x ∉ setErase l x := by
  simp [setErase]

theorem setAdd_ne_nil (l : List String) (x : String) : setAdd l x ≠ [] := by
  by_cases h : x ∈ l
  · simp only [setAdd, if_pos h]
    rintro rfl
    simp at h
  · simp [setAdd, if_neg h]

theorem splitChars_ne_nil (c : Char) (l : List Char) : splitChars c l ≠ [] := by
  cases l with
  | nil => simp [splitChars]
  | cons x xs =>
    simp only [splitChars]
    by_cases h : x = c
    · simp [h]
    · simp only [if_neg h]
      cases splitChars c xs <;> simp

theorem splitChars_of_not_mem (c : Char) (l : List Char) (h : c ∉ l) :
    splitChars c l = [l] := by
  induction l with
  | nil => simp [splitChars]
  | cons x xs ih =>
    simp only [List.mem_cons, not_or] at h
    have hx : ¬ x = c := fun hc => h.1 hc.symm
    simp [splitChars, hx, ih h.2]

theorem string_data_append (s t : String) : (s ++ t).data = s.data ++ t.data :=
  rfl

theorem jsStartsWith_user_append (id : String) :
    jsStartsWith ("user:" ++ id) "user:" = true := by
  simp only [jsStartsWith, string_data_append]
  simp [List.isPrefixOf]

theorem jsStartsWith_user_append_not_admin (id : String) :
    jsStartsWith ("user:" ++ id) "admin_" = false := by
  simp only [jsStartsWith, string_data_append]
  simp [List.isPrefixOf]

theorem jsSplit_user_append (id : String) (h : ':' ∉ id.data) :
    jsSplit ':' ("user:" ++ id) = ["user", id] := by
  simp only [jsSplit, string_data_append]
  have : splitChars ':' ("user:".data ++ id.data)
      = ['u', 's', 'e', 'r'] :: splitChars ':' id.data := by
    show splitChars ':' ('u' :: 's' :: 'e' :: 'r' :: ':' :: id.data) = _
    simp [splitChars]
  rw [this, splitChars_of_not_mem ':' id.data h]
  simp [String.mk]


theorem alInsert_ne_nil {α : Type} (m : List (String × α)) (k : String)
    (v : α) : alInsert m k v ≠ [] := by
  cases m with
  | nil => simp [alInsert]
  | cons p rest =>
    by_cases h : p.1 = k <;> simp [alInsert, h]

theorem roomMembers_socketJoin (s : RegistryState) (h r' r : String) :
    roomMembers (socketJoin s h r') r =
      if r' = r then setAdd (roomMembers s r) h else roomMembers s r := by
  by_cases e : r' = r
  · subst e
    simp [socketJoin, roomMembers, alLookup_insert_self]
  · simp [socketJoin, roomMembers, alLookup_insert_ne _ _ _ _ e, e]

theorem connectedUsers_socketJoin (s : RegistryState) (h r : String) :
    (socketJoin s h r).connectedUsers = s.connectedUsers := rfl

theorem userSessions_socketJoin (s : RegistryState) (h r : String) :
    (socketJoin s h r).userSessions = s.userSessions := rfl

/-- C5: for every connection and call time, `joinRoom(handle,
"admin_dashboard")` succeeds if and only if the caller's role is `admin` at
that moment (in which case the only state change is adding the handle to the
room), and a denial emits `room_join_error` and leaves the whole registry
state unchanged. -/
theorem c5_joinRoom_admin_dashboard (s : RegistryState) (handle : String)
    (userId userRole : Option String) :
    handleJoinRoom s handle userId userRole "admin_dashboard" =
      if userRole = some "admin" then
        { state := socketJoin s handle "admin_dashboard"
          emits := [Emit.toSocket handle (OutEvent.room_joined "admin_dashboard")]
          analytics := []
          ok := true }
      else
        { state := s
          emits := [Emit.toSocket handle
            (OutEvent.room_join_error "Access denied to room")]
          analytics := []
          ok := true } := by
  have hc : canJoinRoom userId userRole "admin_dashboard"
      = decide (userRole = some "admin") := rfl
  by_cases h : userRole = some "admin"
  · subst h
    simp [handleJoinRoom, hc]
  · simp [handleJoinRoom, hc, h]

/-- C2 (amended): `joinRoom` with room name exactly `admins` is denied with
`room_join_error` for every caller, privileged or not — the source's room
check matches `admins` against none of its patterns (`admin_` prefix with the
underscore, `user:` prefix, `public_` prefix) — and the registry state is
unchanged.  A visitor calling it receives `room_join_error` as the claim
states, but so does an admin. -/
theorem c2_joinRoom_admins_always_denied (s : RegistryState) (handle : String)
    (userId userRole : Option String) :
    handleJoinRoom s handle userId userRole "admins" =
      { state := s
        emits := [Emit.toSocket handle
          (OutEvent.room_join_error "Access denied to room")]
        analytics := []
        ok := true } := by
  have hc : canJoinRoom userId userRole "admins" = false := rfl
  simp [handleJoinRoom, hc]

/-- C2 counterexample: a connection whose role is `admin` calls
`joinRoom("admins")` and still receives `room_join_error` with no state
change, refuting "succeeds when the caller's role is privileged". -/
theorem c2_counterexample :
    (handleJoinRoom emptyRegistry "c9" (some "u9") (some "admin") "admins").emits
      = [Emit.toSocket "c9" (OutEvent.room_join_error "Access denied to room")]
    ∧ (handleJoinRoom emptyRegistry "c9" (some "u9") (some "admin") "admins").state
      = emptyRegistry := by
  constructor <;> rfl

/-- C8 (amended): for a room name `user:` ++ id where id contains no colon,
`joinRoom` authorization succeeds iff the caller's own user id equals id or
the caller's role is `admin`.  (For ids containing a colon the source
compares the caller's id against `room.split(':')[1]` — only the segment of
the id before its first colon — so the claim as stated fails there; see the
counterexample.) -/
theorem c8_user_room_rule (userId userRole : Option String) (id : String)
    (h : ':' ∉ id.data) :
    canJoinRoom userId userRole ("user:" ++ id) = true ↔
      userId = some id ∨ userRole = some "admin" := by
  unfold canJoinRoom
  rw [jsStartsWith_user_append_not_admin, jsStartsWith_user_append,
    jsSplit_user_append id h]
  simp

/-- C8 witness: a visitor whose own id is `u1` may join `user:u1`. -/
theorem c8_user_room_rule_witness :
    canJoinRoom (some "u1") (some "visitor") ("user:" ++ "u1") = true :=
  (c8_user_room_rule (some "u1") (some "visitor") "u1" (by decide)).mpr
    (Or.inl rfl)

/-- C8 counterexample: for the user id `a:b` (which contains a colon) the
claimed rule fails in both directions: an unprivileged caller with id `a` is
allowed into room `user:a:b` although `a ≠ a:b`, and an unprivileged caller
with id `a:b` itself is denied. -/
theorem c8_counterexample :
    (canJoinRoom (some "a") (some "visitor") ("user:" ++ "a:b") = true
      ∧ ("a" : String) ≠ "a:b"
      ∧ (some "visitor" : Option String) ≠ some "admin")
    ∧ canJoinRoom (some "a:b") (some "visitor") ("user:" ++ "a:b") = false := by
  refine ⟨⟨?_, by decide, by decide⟩, ?_⟩ <;> rfl

/-- C7 (amended): every `broadcastRealTimeData` tick delivers to room
`admin_dashboard` the snapshot of total, authenticated and admin-role
connection counts computed from the connection table at that moment; the
analytics summary for room `admins` and the total connection count for all
connections are delivered only on ticks whose analytics fetch resolves — a
rejected `getRealTimeMetrics()` is swallowed by the tick's catch, which also
skips the collaborator-independent `active_users_count` broadcast placed
after it.  The tick interval configured in `initialize` is 10 seconds. -/
theorem c7_periodic_snapshot (s : RegistryState) (fetch : Option String) :
    broadcastRealTimeData s fetch =
      Emit.toRoom "admin_dashboard" (OutEvent.dashboard_update
          s.connectedUsers.length
          (s.connectedUsers.filter (fun p => p.2.isAuthenticated)).length
          (s.connectedUsers.filter (fun p => p.2.role = some "admin")).length)
        :: (match fetch with
            | some summary =>
              [Emit.toRoom "admins" (OutEvent.real_time_analytics summary),
               Emit.toAll (OutEvent.active_users_count s.connectedUsers.length)]
            | none => [])
    ∧ broadcastIntervalMs = 10000 := by
  cases fetch <;> exact ⟨rfl, rfl⟩

/-- C7 counterexample: a tick whose analytics fetch rejects, over a registry
with one live connection, emits only the dashboard snapshot — neither the
`admins` broadcast nor the `active_users_count` broadcast to all connections
is delivered, refuting the claim that every tick delivers all three. -/
theorem c7_counterexample :
    broadcastRealTimeData exRegistered none
      = [Emit.toRoom "admin_dashboard" (OutEvent.dashboard_update 1 0 0)]
    ∧ Emit.toAll (OutEvent.active_users_count 1)
        ∉ broadcastRealTimeData exRegistered none := by
  refine ⟨rfl, ?_⟩
  decide

/-- C10: the `connection_established` acknowledgment of a register call (with
the analytics sink resolving) reports exactly the size of the connection
table right after the new record was inserted; the new handle is in the
table, so the count is at least 1. -/
theorem c10_register_count (s : RegistryState) (handle : String)
    (preAuth : Option (String × String)) (now : Nat) (ua ip : String) :
    (handleConnection s handle preAuth now ua ip true).emits
      = [Emit.toSocket handle (OutEvent.connection_established handle
          (handleConnection s handle preAuth now ua ip true).state.connectedUsers.length)]
    ∧ (alLookup (handleConnection s handle preAuth now ua ip true).state.connectedUsers
        handle).isSome = true
    ∧ 1 ≤ (handleConnection s handle preAuth now ua ip true).state.connectedUsers.length := by
  have hcu : (handleConnection s handle preAuth now ua ip true).state.connectedUsers
      = alInsert s.connectedUsers handle
          { userId := preAuth.map Prod.fst
            role := preAuth.map Prod.snd
            isAuthenticated := preAuth.isSome
            connectedAt := now
            lastActivity := now
            userAgent := ua
            ipAddress := ip } := by
    match preAuth with
    | none => rfl
    | some (u, r) =>
      by_cases hr : r = "admin" <;>
        simp [handleConnection, socketJoin, hr]
  refine ⟨?_, ?_, ?_⟩
  · match preAuth with
    | none => rfl
    | some (u, r) =>
      by_cases hr : r = "admin" <;>
        simp [handleConnection, socketJoin, hr]
  · rw [hcu, alLookup_insert_self]
    rfl
  · rw [hcu]
    have := alInsert_ne_nil s.connectedUsers handle
      { userId := preAuth.map Prod.fst
        role := preAuth.map Prod.snd
        isAuthenticated := preAuth.isSome
        connectedAt := now
        lastActivity := now
        userAgent := ua
        ipAddress := ip }
    exact Nat.succ_le_of_lt (List.length_pos.mpr this)

theorem handleDisconnection_failed (s : RegistryState) (handle : String)
    (su : SocketUser) (hsu : alLookup s.connectedUsers handle = some su) :
    (handleDisconnection s handle false).state.connectedUsers = s.connectedUsers
    ∧ (handleDisconnection s handle false).ok = false := by
  simp only [handleDisconnection, hsu]
  cases su.userId with
  | none => simp
  | some u =>
    cases halu : alLookup s.userSessions u with
    | none => simp [halu]
    | some us =>
      by_cases he : setErase us handle = [] <;> simp [halu, he]

/-- C6 (amended): a failure of the analytics sink cannot affect
`recordActivity` (the source does not await that `trackEvent` call), but for
register and unregister the awaited `trackEvent` has no surrounding
try/catch, so a rejection aborts the rest of the handler: register applies
its registry-state changes but never emits the `connection_established`
acknowledgment, and unregister leaves the connection record in the
connection table; in both cases the rejection escapes the handler as an
unhandled promise rejection instead of being swallowed. -/
theorem c6_analytics_failure (s : RegistryState) (handle : String) (now : Nat)
    (preAuth : Option (String × String)) (ua ip : String) (aok : Bool) :
    (handleUserActivity s handle now aok = handleUserActivity s handle now true
      ∧ (handleUserActivity s handle now aok).ok = true)
    ∧ ((handleConnection s handle preAuth now ua ip false).state
        = (handleConnection s handle preAuth now ua ip true).state
      ∧ (handleConnection s handle preAuth now ua ip false).emits = []
      ∧ (handleConnection s handle preAuth now ua ip false).ok = false)
    ∧ (∀ su, alLookup s.connectedUsers handle = some su →
        alLookup (handleDisconnection s handle false).state.connectedUsers handle
          = some su
        ∧ (handleDisconnection s handle false).ok = false) := by
  refine ⟨⟨rfl, rfl⟩, ⟨rfl, rfl, rfl⟩, ?_⟩
  intro su hsu
  have h := handleDisconnection_failed s handle su hsu
  exact ⟨h.1 ▸ hsu, h.2⟩

/-- C6 witness: with `c1` registered, a rejected analytics call during
unregister leaves `c1` in the connection table, and a rejected analytics call
cannot change `recordActivity`'s result. -/
theorem c6_analytics_failure_witness :
    (alLookup (handleDisconnection exRegistered "c1" false).state.connectedUsers
        "c1" = some exRegisteredUser
      ∧ (handleDisconnection exRegistered "c1" false).ok = false)
    ∧ (handleUserActivity exRegistered "c1" 7 false).ok = true :=
  ⟨(c6_analytics_failure exRegistered "c1" 7 none "ua" "ip" false).2.2
      exRegisteredUser (by decide),
   (c6_analytics_failure exRegistered "c1" 7 none "ua" "ip" false).1.2⟩

/-- C6 counterexample: with a rejected analytics call, register never emits
`connection_established` to the caller, and unregister leaves the connection
in the table — the operation does not complete its acknowledgment or its
registry-state changes, refuting "the failure is swallowed". -/
theorem c6_counterexample :
    (handleConnection emptyRegistry "c1" none 0 "ua" "ip" false).emits = []
    ∧ (handleConnection emptyRegistry "c1" none 0 "ua" "ip" false).ok = false
    ∧ (alLookup (handleDisconnection exRegistered "c1" false).state.connectedUsers
        "c1").isSome = true := by
  refine ⟨rfl, rfl, ?_⟩
  rfl

/-- C9: `recordActivity` and unregister on a handle that is not in the
connection table are total no-ops on the registry state (nothing throws in
the source: both handlers guard on `connectedUsers.get`), and on a connection
that registered but never authenticated (`userId = none`) both succeed:
`recordActivity` only bumps `lastActivity`, and unregister only removes the
connection record, leaving the session index and rooms untouched. -/
theorem c9_unknown_handle_noop (s : RegistryState) (handle : String)
    (now : Nat) (aok : Bool) :
    (alLookup s.connectedUsers handle = none →
        handleUserActivity s handle now aok
          = { state := s, emits := [], analytics := ["user_activity"], ok := true }
      ∧ handleDisconnection s handle aok
          = { state := s, emits := [], analytics := [], ok := true })
    ∧ (∀ su, alLookup s.connectedUsers handle = some su → su.userId = none →
        (handleUserActivity s handle now aok).state.connectedUsers
            = alInsert s.connectedUsers handle { su with lastActivity := now }
      ∧ (handleUserActivity s handle now aok).state.userSessions = s.userSessions
      ∧ (handleUserActivity s handle now aok).state.rooms = s.rooms
      ∧ (handleUserActivity s handle now aok).ok = true
      ∧ (handleDisconnection s handle true).state.connectedUsers
            = alErase s.connectedUsers handle
      ∧ (handleDisconnection s handle true).state.userSessions = s.userSessions
      ∧ (handleDisconnection s handle true).state.rooms = s.rooms
      ∧ (handleDisconnection s handle true).ok = true) := by
  constructor
  · intro hnone
    constructor
    · simp [handleUserActivity, hnone]
    · simp [handleDisconnection, hnone]
  · intro su hsu huid
    refine ⟨?_, ?_, ?_, ?_, ?_, ?_, ?_, ?_⟩ <;>
      simp [handleUserActivity, handleDisconnection, hsu, huid]

/-- C9 witness: unregister on a never-registered handle is a no-op that
succeeds, and both operations succeed on registered-but-unauthenticated
`c1`. -/
theorem c9_unknown_handle_noop_witness :
    (handleDisconnection emptyRegistry "ghost" true).state = emptyRegistry
    ∧ (handleUserActivity exRegistered "c1" 9 true).ok = true
    ∧ (handleDisconnection exRegistered "c1" true).ok = true := by
  refine ⟨?_, ?_, ?_⟩
  · exact congrArg HResult.state
      (((c9_unknown_handle_noop emptyRegistry "ghost" 0 true).1 (by decide)).2)
  · exact ((c9_unknown_handle_noop exRegistered "c1" 9 true).2 exRegisteredUser
      (by decide) (by decide)).2.2.2.1
  · exact ((c9_unknown_handle_noop exRegistered "c1" 9 true).2 exRegisteredUser
      (by decide) (by decide)).2.2.2.2.2.2.2

theorem user_room_ne_admins (t : String) : ("user:" ++ t) ≠ "admins" := by
  intro h
  have hd : ('u' :: 's' :: 'e' :: 'r' :: ':' :: t.data)
      = ['a', 'd', 'm', 'i', 'n', 's'] := congrArg String.data h
  injection hd with h1 _
  exact absurd h1 (by decide)

/-- C3 (amended): authenticating a registered connection with a token the
verifier accepts marks the connection authenticated with the returned user id
and role, joins it to room `user:` ++ id and, if the role is `admin`, to room
`admins` — but it does **not** add the connection to the by-user session
index, which is left exactly as it was (the source's `handleAuthentication`
never touches `userSessions`).  With a token the verifier rejects, the
registry state — authenticated flag, room memberships and all — is completely
unchanged. -/
theorem c3_authenticate (s : RegistryState) (handle : String) (su : SocketUser)
    (hreg : alLookup s.connectedUsers handle = some su) (v : UserInfo) :
    (alLookup (handleAuthentication s handle (some v)).state.connectedUsers handle
        = some { su with userId := some v.id, role := some v.role,
                         isAuthenticated := true }
      ∧ handle ∈ roomMembers (handleAuthentication s handle (some v)).state
          ("user:" ++ v.id)
      ∧ (v.role = "admin" →
          handle ∈ roomMembers (handleAuthentication s handle (some v)).state
            "admins")
      ∧ (handleAuthentication s handle (some v)).state.userSessions
          = s.userSessions
      ∧ (handleAuthentication s handle (some v)).emits
          = [Emit.toSocket handle
              (OutEvent.authentication_success v.id v.name v.role)])
    ∧ handleAuthentication s handle none
        = { state := s
            emits := [Emit.toSocket handle
              (OutEvent.authentication_error "Invalid token")]
            analytics := []
            ok := true } := by
  refine ⟨?_, rfl⟩
  by_cases hr : v.role = "admin"
  · simp only [handleAuthentication, hreg, if_pos hr]
    refine ⟨?_, ?_, fun _ => ?_, ?_, trivial⟩
    · rw [connectedUsers_socketJoin, connectedUsers_socketJoin]
      exact alLookup_insert_self _ _ _
    · rw [roomMembers_socketJoin,
        if_neg (fun hc => user_room_ne_admins v.id hc.symm),
        roomMembers_socketJoin, if_pos rfl]
      exact (mem_setAdd _ _ _).mpr (Or.inr rfl)
    · rw [roomMembers_socketJoin, if_pos rfl]
      exact (mem_setAdd _ _ _).mpr (Or.inr rfl)
    · rw [userSessions_socketJoin, userSessions_socketJoin]
  · simp only [handleAuthentication, hreg, if_neg hr]
    refine ⟨?_, ?_, fun hc => absurd hc hr, ?_, trivial⟩
    · rw [connectedUsers_socketJoin]
      exact alLookup_insert_self _ _ _
    · rw [roomMembers_socketJoin, if_pos rfl]
      exact (mem_setAdd _ _ _).mpr (Or.inr rfl)
    · rw [userSessions_socketJoin]

/-- C3 witness: authenticating registered connection `c1` as admin `u1`
leaves the session index unchanged while joining `c1` to room `admins`. -/
theorem c3_authenticate_witness :
    (handleAuthentication exRegistered "c1"
        (some ⟨"u1", "Ann", "admin"⟩)).state.userSessions
      = exRegistered.userSessions
    ∧ "c1" ∈ roomMembers
        (handleAuthentication exRegistered "c1"
          (some ⟨"u1", "Ann", "admin"⟩)).state "admins" := by
  have h := c3_authenticate exRegistered "c1" exRegisteredUser (by decide)
    ⟨"u1", "Ann", "admin"⟩
  exact ⟨h.1.2.2.2.1, h.1.2.2.1 rfl⟩

/-- C3 counterexample: `c2` registers unauthenticated and then authenticates
as `u2` with a verifier-accepted token; the connection is marked
authenticated, yet the by-user session index is still empty — the connection
was never added to it, refuting that part of the claim. -/
theorem c3_counterexample :
    (handleAuthentication exRegistered2 "c2"
        (some ⟨"u2", "Bea", "visitor"⟩)).state.userSessions = []
    ∧ (alLookup (handleAuthentication exRegistered2 "c2"
          (some ⟨"u2", "Bea", "visitor"⟩)).state.connectedUsers "c2").map
        SocketUser.isAuthenticated = some true :=
  ⟨rfl, rfl⟩

theorem handleConnection_cu (s : RegistryState) (handle : String)
    (preAuth : Option (String × String)) (now : Nat) (ua ip : String) :
    (handleConnection s handle preAuth now ua ip true).state.connectedUsers
      = alInsert s.connectedUsers handle
          { userId := preAuth.map Prod.fst
            role := preAuth.map Prod.snd
            isAuthenticated := preAuth.isSome
            connectedAt := now
            lastActivity := now
            userAgent := ua
            ipAddress := ip } := by
  match preAuth with
  | none => rfl
  | some (u, r) =>
    by_cases hr : r = "admin" <;> simp [handleConnection, socketJoin, hr]

theorem handleConnection_us_none (s : RegistryState) (handle : String)
    (now : Nat) (ua ip : String) :
    (handleConnection s handle none now ua ip true).state.userSessions
      = s.userSessions := rfl

theorem handleConnection_us_some (s : RegistryState) (handle u r : String)
    (now : Nat) (ua ip : String) :
    (handleConnection s handle (some (u, r)) now ua ip true).state.userSessions
      = alInsert s.userSessions u
          (setAdd ((alLookup s.userSessions u).getD []) handle) := by
  by_cases hr : r = "admin" <;> simp [handleConnection, socketJoin, hr]

theorem handleJoinRoom_cu (s : RegistryState) (handle : String)
    (userId userRole : Option String) (room : String) :
    (handleJoinRoom s handle userId userRole room).state.connectedUsers
      = s.connectedUsers := by
  unfold handleJoinRoom
  split <;> rfl

theorem handleJoinRoom_us (s : RegistryState) (handle : String)
    (userId userRole : Option String) (room : String) :
    (handleJoinRoom s handle userId userRole room).state.userSessions
      = s.userSessions := by
  unfold handleJoinRoom
  split <;> rfl

theorem handleLeaveRoom_cu (s : RegistryState) (handle room : String) :
    (handleLeaveRoom s handle room).state.connectedUsers = s.connectedUsers := by
  unfold handleLeaveRoom socketLeave
  split <;> rfl

theorem handleLeaveRoom_us (s : RegistryState) (handle room : String) :
    (handleLeaveRoom s handle room).state.userSessions = s.userSessions := by
  unfold handleLeaveRoom socketLeave
  split <;> rfl

theorem handleUserActivity_us (s : RegistryState) (handle : String) (now : Nat)
    (aok : Bool) :
    (handleUserActivity s handle now aok).state.userSessions = s.userSessions := by
  unfold handleUserActivity
  split <;> rfl

/-- `user_activity` only bumps `lastActivity`: the authentication-relevant
fields of every table entry are untouched. -/
theorem handleUserActivity_cu_fields (s : RegistryState) (handle : String)
    (now : Nat) (aok : Bool) (h : String) :
    ((alLookup (handleUserActivity s handle now aok).state.connectedUsers h).map
        (fun su => (su.isAuthenticated, su.userId)))
      = ((alLookup s.connectedUsers h).map
        (fun su => (su.isAuthenticated, su.userId))) := by
  unfold handleUserActivity
  cases hl : alLookup s.connectedUsers handle with
  | none => rfl
  | some su =>
    by_cases he : handle = h
    · subst he
      simp [alLookup_insert_self, hl]
    · simp [alLookup_insert_ne _ _ _ _ he]

theorem exists_su_congr (o o' : Option SocketUser)
    (hf : o.map (fun su => (su.isAuthenticated, su.userId))
        = o'.map (fun su => (su.isAuthenticated, su.userId))) (u : String) :
    (∃ su, o = some su ∧ su.isAuthenticated = true ∧ su.userId = some u) ↔
      (∃ su, o' = some su ∧ su.isAuthenticated = true ∧ su.userId = some u) := by
  cases o with
  | none =>
    cases o' with
    | none => simp
    | some su' => simp at hf
  | some su =>
    cases o' with
    | none => simp at hf
    | some su' =>
      have h1 : su.isAuthenticated = su'.isAuthenticated :=
        congrArg Prod.fst (Option.some.inj hf)
      have h2 : su.userId = su'.userId :=
        congrArg Prod.snd (Option.some.inj hf)
      simp [h1, h2]

/-- `SessionInv` only depends on the session index and on the
authentication-relevant fields of the connection table. -/
theorem sessionInv_congr (s s' : RegistryState)
    (hus : s'.userSessions = s.userSessions)
    (hcu : ∀ h, (alLookup s'.connectedUsers h).map
        (fun su => (su.isAuthenticated, su.userId))
      = (alLookup s.connectedUsers h).map
        (fun su => (su.isAuthenticated, su.userId)))
    (hinv : SessionInv s) : SessionInv s' := by
  constructor
  · intro u hs hlk
    rw [hus] at hlk
    obtain ⟨hne, hmem⟩ := hinv.1 u hs hlk
    refine ⟨hne, fun h => ?_⟩
    rw [hmem h]
    exact (exists_su_congr _ _ (hcu h) u).symm
  · intro u hn h su hsu hcontra
    rw [hus] at hn
    have hx : ∃ su0, alLookup s.connectedUsers h = some su0 ∧
        su0.isAuthenticated = true ∧ su0.userId = some u :=
      (exists_su_congr _ _ (hcu h) u).mp ⟨su, hsu, hcontra⟩
    obtain ⟨su0, hsu0, hc0⟩ := hx
    exact hinv.2 u hn h su0 hsu0 hc0

theorem sessionInv_register (s : RegistryState) (handle : String)
    (preAuth : Option (String × String)) (now : Nat) (ua ip : String)
    (hfresh : alLookup s.connectedUsers handle = none)
    (hinv : SessionInv s) :
    SessionInv (handleConnection s handle preAuth now ua ip true).state := by
  have hcu := handleConnection_cu s handle preAuth now ua ip
  cases preAuth with
  | none =>
    constructor
    · intro u hs hlk
      rw [handleConnection_us_none] at hlk
      obtain ⟨hne, hmem⟩ := hinv.1 u hs hlk
      refine ⟨hne, fun h => ?_⟩
      by_cases hh : h = handle
      · subst hh
        constructor
        · intro hmem'
          obtain ⟨su, hsu, _⟩ := (hmem h).mp hmem'
          rw [hfresh] at hsu
          cases hsu
        · rintro ⟨su, hsu, hauth, _⟩
          rw [hcu, alLookup_insert_self] at hsu
          cases hsu
          cases hauth
      · rw [hmem h, hcu, alLookup_insert_ne _ _ _ _ (fun hc => hh hc.symm)]
    · intro u hn h su hsu hc
      rw [handleConnection_us_none] at hn
      by_cases hh : h = handle
      · subst hh
        rw [hcu, alLookup_insert_self] at hsu
        cases hsu
        cases hc.1
      · rw [hcu, alLookup_insert_ne _ _ _ _ (fun hcq => hh hcq.symm)] at hsu
        exact hinv.2 u hn h su hsu hc
  | some p =>
    obtain ⟨u0, r0⟩ := p
    have hus := handleConnection_us_some s handle u0 r0 now ua ip
    constructor
    · intro u hs hlk
      rw [hus] at hlk
      by_cases hu : u = u0
      · subst hu
        rw [alLookup_insert_self] at hlk
        cases hlk
        refine ⟨setAdd_ne_nil _ _, fun h => ?_⟩
        rw [mem_setAdd]
        by_cases hh : h = handle
        · subst hh
          constructor
          · intro _
            refine ⟨⟨some u, some r0, true, now, now, ua, ip⟩, ?_, rfl, rfl⟩
            rw [hcu]
            exact alLookup_insert_self _ _ _
          · intro _
            exact Or.inr rfl
        · rw [hcu, alLookup_insert_ne _ _ _ _ (fun hc => hh hc.symm)]
          constructor
          · rintro (hin | hEq)
            · cases hold : alLookup s.userSessions u with
              | none =>
                rw [hold] at hin
                cases hin
              | some os =>
                rw [hold] at hin
                exact ((hinv.1 u os hold).2 h).mp hin
            · exact absurd hEq hh
          · rintro ⟨su, hsu, hauth, hid⟩
            cases hold : alLookup s.userSessions u with
            | none => exact absurd ⟨hauth, hid⟩ (hinv.2 u hold h su hsu)
            | some os =>
              left
              exact ((hinv.1 u os hold).2 h).mpr ⟨su, hsu, hauth, hid⟩
      · rw [alLookup_insert_ne _ _ _ _ (fun hc => hu hc.symm)] at hlk
        obtain ⟨hne, hmem⟩ := hinv.1 u hs hlk
        refine ⟨hne, fun h => ?_⟩
        by_cases hh : h = handle
        · subst hh
          constructor
          · intro hmem'
            obtain ⟨su, hsu, _⟩ := (hmem h).mp hmem'
            rw [hfresh] at hsu
            cases hsu
          · rintro ⟨su, hsu, _, hid⟩
            rw [hcu, alLookup_insert_self] at hsu
            cases hsu
            exact absurd (Option.some.inj hid).symm hu
        · rw [hmem h, hcu, alLookup_insert_ne _ _ _ _ (fun hc => hh hc.symm)]
    · intro u hn h su hsu hc
      rw [hus] at hn
      by_cases hu : u = u0
      · subst hu
        rw [alLookup_insert_self] at hn
        cases hn
      · rw [alLookup_insert_ne _ _ _ _ (fun hc0 => hu hc0.symm)] at hn
        by_cases hh : h = handle
        · subst hh
          rw [hcu, alLookup_insert_self] at hsu
          cases hsu
          exact hu (Option.some.inj hc.2).symm
        · rw [hcu, alLookup_insert_ne _ _ _ _ (fun hcq => hh hcq.symm)] at hsu
          exact hinv.2 u hn h su hsu hc

theorem sessionInvOn_erase (cu : List (String × SocketUser))
    (us : List (String × List String)) (handle : String)
    (hnotin : ∀ u hs, alLookup us u = some hs → handle ∉ hs)
    (hinv : SessionInvOn cu us) :
    SessionInvOn (alErase cu handle) us := by
  constructor
  · intro u hs hlk
    obtain ⟨hne, hmem⟩ := hinv.1 u hs hlk
    refine ⟨hne, fun h => ?_⟩
    by_cases hh : h = handle
    · subst hh
      constructor
      · intro hin
        exact absurd hin (hnotin u hs hlk)
      · rintro ⟨su, hsu, _⟩
        rw [alLookup_erase_self] at hsu
        cases hsu
    · rw [hmem h, alLookup_erase_ne _ _ _ (fun e => hh e.symm)]
  · intro u hn h su hsu hc
    by_cases hh : h = handle
    · subst hh
      rw [alLookup_erase_self] at hsu
      cases hsu
    · rw [alLookup_erase_ne _ _ _ (fun e => hh e.symm)] at hsu
      exact hinv.2 u hn h su hsu hc

theorem sessionInvOn_disconnect_last (cu : List (String × SocketUser))
    (us : List (String × List String)) (handle u0 : String)
    (su : SocketUser) (us0 : List String)
    (hl : alLookup cu handle = some su) (hui : su.userId = some u0)
    (hsess : alLookup us u0 = some us0)
    (hrem : setErase us0 handle = [])
    (hinv : SessionInvOn cu us) :
    SessionInvOn (alErase cu handle) (alErase us u0) := by
  constructor
  · intro u hs hlk
    have hu : ¬ u = u0 := by
      intro e
      subst e
      rw [alLookup_erase_self] at hlk
      cases hlk
    rw [alLookup_erase_ne _ _ _ (fun e => hu e.symm)] at hlk
    obtain ⟨hne, hmem⟩ := hinv.1 u hs hlk
    refine ⟨hne, fun h => ?_⟩
    by_cases hh : h = handle
    · subst hh
      constructor
      · intro hin
        obtain ⟨su', hsu', _, hid'⟩ := (hmem h).mp hin
        rw [hl] at hsu'
        cases hsu'
        rw [hui] at hid'
        exact absurd (Option.some.inj hid').symm hu
      · rintro ⟨su', hsu', _⟩
        rw [alLookup_erase_self] at hsu'
        cases hsu'
    · rw [hmem h, alLookup_erase_ne _ _ _ (fun e => hh e.symm)]
  · intro u hn h su' hsu' hc
    by_cases hh : h = handle
    · subst hh
      rw [alLookup_erase_self] at hsu'
      cases hsu'
    · rw [alLookup_erase_ne _ _ _ (fun e => hh e.symm)] at hsu'
      by_cases hu : u = u0
      · subst hu
        have hin : h ∈ us0 :=
          ((hinv.1 u us0 hsess).2 h).mpr ⟨su', hsu', hc.1, hc.2⟩
        have : h ∈ setErase us0 handle := (mem_setErase _ _ _).mpr ⟨hin, hh⟩
        rw [hrem] at this
        cases this
      · rw [alLookup_erase_ne _ _ _ (fun e => hu e.symm)] at hn
        exact hinv.2 u hn h su' hsu' hc

theorem sessionInvOn_disconnect_rest (cu : List (String × SocketUser))
    (us : List (String × List String)) (handle u0 : String)
    (su : SocketUser) (us0 : List String)
    (hl : alLookup cu handle = some su) (hui : su.userId = some u0)
    (hsess : alLookup us u0 = some us0)
    (hrem : setErase us0 handle ≠ [])
    (hinv : SessionInvOn cu us) :
    SessionInvOn (alErase cu handle)
      (alInsert us u0 (setErase us0 handle)) := by
  constructor
  · intro u hs hlk
    by_cases hu : u = u0
    · subst hu
      rw [alLookup_insert_self] at hlk
      cases hlk
      refine ⟨hrem, fun h => ?_⟩
      by_cases hh : h = handle
      · subst hh
        constructor
        · intro hin
          exact absurd hin (not_mem_setErase_self _ _)
        · rintro ⟨su', hsu', _⟩
          rw [alLookup_erase_self] at hsu'
          cases hsu'
      · rw [mem_setErase, alLookup_erase_ne _ _ _ (fun e => hh e.symm)]
        constructor
        · rintro ⟨hin, _⟩
          exact ((hinv.1 u us0 hsess).2 h).mp hin
        · intro hex
          exact ⟨((hinv.1 u us0 hsess).2 h).mpr hex, hh⟩
    · rw [alLookup_insert_ne _ _ _ _ (fun e => hu e.symm)] at hlk
      obtain ⟨hne, hmem⟩ := hinv.1 u hs hlk
      refine ⟨hne, fun h => ?_⟩
      by_cases hh : h = handle
      · subst hh
        constructor
        · intro hin
          obtain ⟨su', hsu', _, hid'⟩ := (hmem h).mp hin
          rw [hl] at hsu'
          cases hsu'
          rw [hui] at hid'
          exact absurd (Option.some.inj hid').symm hu
        · rintro ⟨su', hsu', _⟩
          rw [alLookup_erase_self] at hsu'
          cases hsu'
      · rw [hmem h, alLookup_erase_ne _ _ _ (fun e => hh e.symm)]
  · intro u hn h su' hsu' hc
    by_cases hh : h = handle
    · subst hh
      rw [alLookup_erase_self] at hsu'
      cases hsu'
    · rw [alLookup_erase_ne _ _ _ (fun e => hh e.symm)] at hsu'
      by_cases hu : u = u0
      · subst hu
        rw [alLookup_insert_self] at hn
        cases hn
      · rw [alLookup_insert_ne _ _ _ _ (fun e => hu e.symm)] at hn
        exact hinv.2 u hn h su' hsu' hc

theorem sessionInv_handleDisconnection (s : RegistryState) (handle : String)
    (hinv : SessionInv s) :
    SessionInv (handleDisconnection s handle true).state := by
  cases hl : alLookup s.connectedUsers handle with
  | none =>
    have hst : (handleDisconnection s handle true).state = s := by
      simp [handleDisconnection, hl]
    rw [hst]
    exact hinv
  | some su =>
    cases hui : su.userId with
    | none =>
      have hst : (handleDisconnection s handle true).state
          = { s with connectedUsers := alErase s.connectedUsers handle } := by
        simp [handleDisconnection, hl, hui]
      rw [hst]
      refine sessionInvOn_erase s.connectedUsers s.userSessions handle ?_ hinv
      intro u hs hlk hin
      obtain ⟨su', hsu', _, hid'⟩ := ((hinv.1 u hs hlk).2 handle).mp hin
      rw [hl] at hsu'
      cases hsu'
      rw [hui] at hid'
      cases hid'
    | some u0 =>
      cases hsess : alLookup s.userSessions u0 with
      | none =>
        have hst : (handleDisconnection s handle true).state
            = { s with connectedUsers := alErase s.connectedUsers handle } := by
          simp [handleDisconnection, hl, hui, hsess]
        rw [hst]
        refine sessionInvOn_erase s.connectedUsers s.userSessions handle ?_ hinv
        intro u hs hlk hin
        obtain ⟨su', hsu', _, hid'⟩ := ((hinv.1 u hs hlk).2 handle).mp hin
        rw [hl] at hsu'
        cases hsu'
        rw [hui] at hid'
        have he := Option.some.inj hid'
        subst he
        rw [hsess] at hlk
        cases hlk
      | some us0 =>
        by_cases hrem : setErase us0 handle = []
        · have hst : (handleDisconnection s handle true).state
              = { s with connectedUsers := alErase s.connectedUsers handle
                         userSessions := alErase s.userSessions u0 } := by
            simp [handleDisconnection, hl, hui, hsess, hrem]
          rw [hst]
          exact sessionInvOn_disconnect_last s.connectedUsers s.userSessions
            handle u0 su us0 hl hui hsess hrem hinv
        · have hst : (handleDisconnection s handle true).state
              = { s with connectedUsers := alErase s.connectedUsers handle
                         userSessions :=
                           alInsert s.userSessions u0 (setErase us0 handle) } := by
            simp [handleDisconnection, hl, hui, hsess, hrem]
          rw [hst]
          exact sessionInvOn_disconnect_rest s.connectedUsers s.userSessions
            handle u0 su us0 hl hui hsess hrem hinv

/-- C1 (amended): the stated invariant — a user id appears in the by-user
session index iff at least one currently-registered connection is
authenticated as that user, with the per-user set removed when it becomes
empty — holds for every state reachable without the `authenticate` event,
i.e. it is preserved by register (including the middleware handshake
authentication), `join_room`, `leave_room`, `user_activity` and unregister.
It is **not** preserved by the `authenticate` event, which marks the
connection authenticated without ever adding it to the index (see the
counterexample). -/
theorem c1_session_index_invariant (s : RegistryState)
    (hreach : ReachableNoAuth s) : SessionInv s := by
  induction hreach with
  | init =>
    constructor
    · intro u hs hlk
      cases hlk
    · intro u hn h su hsu
      cases hsu
  | register s handle preAuth now ua ip _ hfresh ih =>
    exact sessionInv_register s handle preAuth now ua ip hfresh ih
  | joinRm s handle room su _ hlook ih =>
    exact sessionInv_congr s _ (handleJoinRoom_us s handle su.userId su.role room)
      (fun h => by rw [handleJoinRoom_cu]) ih
  | leaveRm s handle room _ ih =>
    exact sessionInv_congr s _ (handleLeaveRoom_us s handle room)
      (fun h => by rw [handleLeaveRoom_cu]) ih
  | activity s handle now _ ih =>
    exact sessionInv_congr s _ (handleUserActivity_us s handle now true)
      (fun h => handleUserActivity_cu_fields s handle now true h) ih
  | disconnect s handle _ ih =>
    exact sessionInv_handleDisconnection (leaveAllRooms s handle) handle ih

/-- C1 witness: the invariant holds at the reachable state in which `c7`
registered with a middleware-authenticated handshake as user `u7`. -/
theorem c1_session_index_invariant_witness :
    SessionInv (handleConnection emptyRegistry "c7" (some ("u7", "visitor"))
      0 "ua" "ip" true).state :=
  c1_session_index_invariant _
    (ReachableNoAuth.register emptyRegistry "c7" (some ("u7", "visitor"))
      0 "ua" "ip" ReachableNoAuth.init (by decide))

/-- C1 counterexample: after register followed by a successful `authenticate`
as `u1` — a reachable composition of the claim's own operations — connection
`c1` is registered and authenticated as `u1`, yet `u1` has no entry in the
by-user session index: the claimed iff fails because `handleAuthentication`
never adds to the index. -/
theorem c1_counterexample :
    (alLookup exAuthenticated.connectedUsers "c1").map SocketUser.userId
      = some (some "u1")
    ∧ (alLookup exAuthenticated.connectedUsers "c1").map SocketUser.isAuthenticated
      = some true
    ∧ alLookup exAuthenticated.userSessions "u1" = none :=
  ⟨rfl, rfl, rfl⟩

theorem handleAuthentication_us (s : RegistryState) (handle : String)
    (v : UserInfo) :
    (handleAuthentication s handle (some v)).state.userSessions
      = s.userSessions := by
  cases hl : alLookup s.connectedUsers handle <;>
    by_cases hr : v.role = "admin" <;>
      simp [handleAuthentication, hl, hr, socketJoin]

theorem handleAuthentication_cu_some (s : RegistryState) (handle : String)
    (v : UserInfo) (su : SocketUser)
    (hl : alLookup s.connectedUsers handle = some su) :
    (handleAuthentication s handle (some v)).state.connectedUsers
      = alInsert s.connectedUsers handle
          { su with userId := some v.id, role := some v.role,
                    isAuthenticated := true } := by
  by_cases hr : v.role = "admin" <;>
    simp [handleAuthentication, hl, hr, socketJoin]

theorem c4inv_after_register (s0 : RegistryState) (handle : String)
    (preAuth : Option (String × String)) (now : Nat) (ua ip : String)
    (hses : ∀ u hs, alLookup s0.userSessions u = some hs →
      handle ∉ hs ∧ hs ≠ []) :
    C4Inv handle preAuth
      (handleConnection s0 handle preAuth now ua ip true).state := by
  have hcu := handleConnection_cu s0 handle preAuth now ua ip
  refine ⟨?_, ?_, ?_⟩
  · rw [hcu, alLookup_insert_self]
    rfl
  · intro u hs hlk
    cases preAuth with
    | none =>
      rw [handleConnection_us_none] at hlk
      exact ⟨(hses u hs hlk).2, fun hin => absurd hin (hses u hs hlk).1⟩
    | some p =>
      obtain ⟨u0, r0⟩ := p
      rw [handleConnection_us_some] at hlk
      by_cases hu : u = u0
      · subst hu
        rw [alLookup_insert_self] at hlk
        cases hlk
        exact ⟨setAdd_ne_nil _ _, fun _ => ⟨r0, rfl⟩⟩
      · rw [alLookup_insert_ne _ _ _ _ (fun e => hu e.symm)] at hlk
        exact ⟨(hses u hs hlk).2, fun hin => absurd hin (hses u hs hlk).1⟩
  · intro su hsu u0 r0 hpre
    subst hpre
    rw [hcu, alLookup_insert_self] at hsu
    cases hsu
    rfl

theorem c4inv_applyMid (handle : String) (preAuth : Option (String × String))
    (op : MidOp)
    (hop : ∀ v, op = MidOp.auth (some v) →
      ∀ u0 r0, preAuth = some (u0, r0) → v.id = u0)
    (s : RegistryState) (hinv : C4Inv handle preAuth s) :
    C4Inv handle preAuth (applyMid handle s op) := by
  cases op with
  | auth verify =>
    cases verify with
    | none => exact hinv
    | some v =>
      cases hl : alLookup s.connectedUsers handle with
      | none =>
        have : (alLookup s.connectedUsers handle).isSome = true := hinv.1
        rw [hl] at this
        cases this
      | some su =>
        have hcu := handleAuthentication_cu_some s handle v su hl
        refine ⟨?_, ?_, ?_⟩
        · show (alLookup (handleAuthentication s handle (some v)).state.connectedUsers
            handle).isSome = true
          rw [hcu, alLookup_insert_self]
          rfl
        · intro u hs hlk
          have hlk' : alLookup s.userSessions u = some hs := by
            rw [← handleAuthentication_us s handle v]
            exact hlk
          exact hinv.2.1 u hs hlk'
        · intro su' hsu' u0 r0 hpre
          have hsu2 : alLookup (handleAuthentication s handle (some v)).state.connectedUsers
              handle = some su' := hsu'
          rw [hcu, alLookup_insert_self] at hsu2
          cases hsu2
          have := hop v rfl u0 r0 hpre
          rw [this]
  | joinRm room =>
    cases hl : alLookup s.connectedUsers handle with
    | none =>
      have : (alLookup s.connectedUsers handle).isSome = true := hinv.1
      rw [hl] at this
      cases this
    | some su =>
      have happ : applyMid handle s (MidOp.joinRm room)
          = (handleJoinRoom s handle su.userId su.role room).state := by
        simp [applyMid, hl]
      rw [happ]
      refine ⟨?_, ?_, ?_⟩
      · rw [handleJoinRoom_cu]
        exact hinv.1
      · intro u hs hlk
        have hlk' : alLookup s.userSessions u = some hs := by
          rw [← handleJoinRoom_us s handle su.userId su.role room]
          exact hlk
        exact hinv.2.1 u hs hlk'
      · intro su' hsu' u0 r0 hpre
        rw [handleJoinRoom_cu] at hsu'
        exact hinv.2.2 su' hsu' u0 r0 hpre
  | activity now =>
    cases hl : alLookup s.connectedUsers handle with
    | none =>
      have : (alLookup s.connectedUsers handle).isSome = true := hinv.1
      rw [hl] at this
      cases this
    | some su =>
      have hst : (handleUserActivity s handle now true).state
          = { s with connectedUsers :=
              alInsert s.connectedUsers handle { su with lastActivity := now } } := by
        simp [handleUserActivity, hl]
      show C4Inv handle preAuth (handleUserActivity s handle now true).state
      rw [hst]
      refine ⟨?_, ?_, ?_⟩
      · show (alLookup (alInsert s.connectedUsers handle
          { su with lastActivity := now }) handle).isSome = true
        rw [alLookup_insert_self]
        rfl
      · intro u hs hlk
        exact hinv.2.1 u hs hlk
      · intro su' hsu' u0 r0 hpre
        have hsu2 : alLookup (alInsert s.connectedUsers handle
            { su with lastActivity := now }) handle = some su' := hsu'
        rw [alLookup_insert_self] at hsu2
        cases hsu2
        exact hinv.2.2 su hl u0 r0 hpre

theorem c4inv_foldl (handle : String) (preAuth : Option (String × String))
    (mids : List MidOp) (hcons : midsIdConsistent preAuth mids) :
    ∀ s, C4Inv handle preAuth s →
      C4Inv handle preAuth (mids.foldl (applyMid handle) s) := by
  induction mids with
  | nil => exact fun s h => h
  | cons op rest ih =>
    intro s h
    rw [List.foldl_cons]
    refine ih (fun v hv u0 r0 hp => hcons v (List.mem_cons_of_mem op hv) u0 r0 hp)
      (applyMid handle s op)
      (c4inv_applyMid handle preAuth op ?_ s h)
    intro v hveq u0 r0 hp
    refine hcons v ?_ u0 r0 hp
    rw [← hveq]
    exact List.mem_cons_self op rest

theorem handleDisconnection_cu_some (s : RegistryState) (handle : String)
    (su : SocketUser) (hl : alLookup s.connectedUsers handle = some su) :
    (handleDisconnection s handle true).state.connectedUsers
      = alErase s.connectedUsers handle := by
  simp only [handleDisconnection, hl]
  cases su.userId with
  | none => rfl
  | some u0 =>
    cases hsess : alLookup s.userSessions u0 with
    | none => simp [hsess]
    | some us0 =>
      by_cases hrem : setErase us0 handle = [] <;> simp [hsess, hrem]

theorem handleDisconnection_cu_lookup (s : RegistryState) (handle : String) :
    alLookup (handleDisconnection s handle true).state.connectedUsers handle
      = none := by
  cases hl : alLookup s.connectedUsers handle with
  | none =>
    have hst : (handleDisconnection s handle true).state = s := by
      simp [handleDisconnection, hl]
    rw [hst]
    exact hl
  | some su =>
    rw [handleDisconnection_cu_some s handle su hl]
    exact alLookup_erase_self _ _

theorem handleDisconnection_rooms (s : RegistryState) (handle : String)
    (aok : Bool) :
    (handleDisconnection s handle aok).state.rooms = s.rooms := by
  cases hl : alLookup s.connectedUsers handle with
  | none => simp [handleDisconnection, hl]
  | some su =>
    simp only [handleDisconnection, hl]
    cases su.userId with
    | none => cases aok <;> rfl
    | some u0 =>
      cases hsess : alLookup s.userSessions u0 with
      | none => cases aok <;> simp [hsess]
      | some us0 =>
        by_cases hrem : setErase us0 handle = [] <;>
          cases aok <;> simp [hsess, hrem]

theorem alLookup_map_setErase (rooms : List (String × List String))
    (handle room : String) (mem : List String)
    (h : alLookup (rooms.map (fun p => (p.1, setErase p.2 handle))) room
      = some mem) : handle ∉ mem := by
  induction rooms with
  | nil => cases h
  | cons p rest ih =>
    simp only [List.map_cons, alLookup] at h
    by_cases hp : p.1 = room
    · rw [if_pos hp] at h
      cases h
      exact not_mem_setErase_self _ _
    · rw [if_neg hp] at h
      exact ih h

theorem c4_sessions_after_disconnect (s : RegistryState) (handle : String)
    (preAuth : Option (String × String)) (hinv : C4Inv handle preAuth s) :
    ∀ u hs,
      alLookup (handleDisconnection s handle true).state.userSessions u = some hs →
        handle ∉ hs ∧ hs ≠ [] := by
  cases hl : alLookup s.connectedUsers handle with
  | none =>
    have : (alLookup s.connectedUsers handle).isSome = true := hinv.1
    rw [hl] at this
    cases this
  | some su =>
    cases hui : su.userId with
    | none =>
      have hst : (handleDisconnection s handle true).state
          = { s with connectedUsers := alErase s.connectedUsers handle } := by
        simp [handleDisconnection, hl, hui]
      rw [hst]
      intro u hs hlk
      have hlk' : alLookup s.userSessions u = some hs := hlk
      refine ⟨fun hin => ?_, (hinv.2.1 u hs hlk').1⟩
      obtain ⟨r0, hpre⟩ := (hinv.2.1 u hs hlk').2 hin
      have := hinv.2.2 su hl u r0 hpre
      rw [hui] at this
      cases this
    | some u0 =>
      cases hsess : alLookup s.userSessions u0 with
      | none =>
        have hst : (handleDisconnection s handle true).state
            = { s with connectedUsers := alErase s.connectedUsers handle } := by
          simp [handleDisconnection, hl, hui, hsess]
        rw [hst]
        intro u hs hlk
        have hlk' : alLookup s.userSessions u = some hs := hlk
        refine ⟨fun hin => ?_, (hinv.2.1 u hs hlk').1⟩
        obtain ⟨r0, hpre⟩ := (hinv.2.1 u hs hlk').2 hin
        have hid := hinv.2.2 su hl u r0 hpre
        rw [hui] at hid
        have he := Option.some.inj hid
        subst he
        rw [hsess] at hlk'
        cases hlk'
      | some us0 =>
        by_cases hrem : setErase us0 handle = []
        · have hst : (handleDisconnection s handle true).state
              = { s with connectedUsers := alErase s.connectedUsers handle
                         userSessions := alErase s.userSessions u0 } := by
            simp [handleDisconnection, hl, hui, hsess, hrem]
          rw [hst]
          intro u hs hlk
          have hlk0 : alLookup (alErase s.userSessions u0) u = some hs := hlk
          have hu : ¬ u = u0 := by
            intro e
            subst e
            rw [alLookup_erase_self] at hlk0
            cases hlk0
          rw [alLookup_erase_ne _ _ _ (fun e => hu e.symm)] at hlk0
          refine ⟨fun hin => ?_, (hinv.2.1 u hs hlk0).1⟩
          obtain ⟨r0, hpre⟩ := (hinv.2.1 u hs hlk0).2 hin
          have hid := hinv.2.2 su hl u r0 hpre
          rw [hui] at hid
          exact hu (Option.some.inj hid).symm
        · have hst : (handleDisconnection s handle true).state
              = { s with connectedUsers := alErase s.connectedUsers handle
                         userSessions :=
                           alInsert s.userSessions u0 (setErase us0 handle) } := by
            simp [handleDisconnection, hl, hui, hsess, hrem]
          rw [hst]
          intro u hs hlk
          have hlk0 : alLookup (alInsert s.userSessions u0 (setErase us0 handle)) u
              = some hs := hlk
          by_cases hu : u = u0
          · subst hu
            rw [alLookup_insert_self] at hlk0
            cases hlk0
            exact ⟨not_mem_setErase_self _ _, hrem⟩
          · rw [alLookup_insert_ne _ _ _ _ (fun e => hu e.symm)] at hlk0
            refine ⟨fun hin => ?_, (hinv.2.1 u hs hlk0).1⟩
            obtain ⟨r0, hpre⟩ := (hinv.2.1 u hs hlk0).2 hin
            have hid := hinv.2.2 su hl u r0 hpre
            rw [hui] at hid
            exact hu (Option.some.inj hid).symm

/-- C4 (amended): for every sequence register → N×(authenticate | joinRoom |
recordActivity) → unregister on one connection handle — starting from any
state whose session-index entries are nonempty and do not contain the handle
— after unregister the handle is absent from the connection table and from
every room's membership set; it is also absent from the by-user session
index, with entries never left empty, **provided** every successful
authenticate in the sequence reasserted the identity the connection carried
at registration (which in particular holds whenever the connection registered
unauthenticated, since `handleAuthentication` never adds to the index).
Without that proviso an identity-changing authenticate strands the handle in
the index under its registration-time user id (see the counterexample). -/
theorem c4_unregister_cleanup (s0 : RegistryState) (handle : String)
    (preAuth : Option (String × String)) (now : Nat) (ua ip : String)
    (mids : List MidOp)
    (hses : ∀ u hs, alLookup s0.userSessions u = some hs →
      handle ∉ hs ∧ hs ≠ [])
    (hcons : midsIdConsistent preAuth mids) :
    alLookup (runLifecycle s0 handle preAuth now ua ip mids).connectedUsers
        handle = none
    ∧ (∀ room mem,
        alLookup (runLifecycle s0 handle preAuth now ua ip mids).rooms room
            = some mem → handle ∉ mem)
    ∧ (∀ u hs,
        alLookup (runLifecycle s0 handle preAuth now ua ip mids).userSessions u
            = some hs → handle ∉ hs ∧ hs ≠ []) := by
  have h1 := c4inv_after_register s0 handle preAuth now ua ip hses
  have h2 := c4inv_foldl handle preAuth mids hcons _ h1
  refine ⟨?_, ?_, ?_⟩
  · exact handleDisconnection_cu_lookup
      (leaveAllRooms (mids.foldl (applyMid handle)
        (handleConnection s0 handle preAuth now ua ip true).state) handle) handle
  · intro room mem hmem
    have hmem' : alLookup (handleDisconnection
        (leaveAllRooms (mids.foldl (applyMid handle)
          (handleConnection s0 handle preAuth now ua ip true).state) handle)
        handle true).state.rooms room = some mem := hmem
    rw [handleDisconnection_rooms] at hmem'
    exact alLookup_map_setErase _ handle room mem hmem'
  · intro u hs hlk
    have h2' : C4Inv handle preAuth
        (leaveAllRooms (mids.foldl (applyMid handle)
          (handleConnection s0 handle preAuth now ua ip true).state) handle) := h2
    exact c4_sessions_after_disconnect _ handle preAuth h2' u hs hlk

/-- C4 witness: a full register → unregister lifecycle of `c4`, registered
pre-authenticated as `u4`, leaves the connection table without `c4`. -/
theorem c4_unregister_cleanup_witness :
    alLookup (runLifecycle emptyRegistry "c4" (some ("u4", "visitor")) 0 "ua"
      "ip" []).connectedUsers "c4" = none :=
  (c4_unregister_cleanup emptyRegistry "c4" (some ("u4", "visitor")) 0 "ua" "ip"
    [] (fun _ _ h => nomatch h) (fun _ hv => nomatch hv)).1

/-- C4 counterexample: `c3` registers pre-authenticated as `u1`, then
authenticates as a different user `u2`, then unregisters.  After unregister
the connection record is gone, but the session index still maps `u1` to a set
containing `c3`: the handle is not removed from the by-user session index,
refuting the claim for sequences whose authenticate changes identity. -/
theorem c4_counterexample :
    (runLifecycle emptyRegistry "c3" (some ("u1", "visitor")) 0 "ua" "ip"
        [MidOp.auth (some ⟨"u2", "Cal", "visitor"⟩)]).userSessions
      = [("u1", ["c3"])]
    ∧ alLookup (runLifecycle emptyRegistry "c3" (some ("u1", "visitor")) 0 "ua"
        "ip" [MidOp.auth (some ⟨"u2", "Cal", "visitor"⟩)]).connectedUsers "c3"
      = none :=
  ⟨rfl, rfl⟩
